import Mathlib

set_option maxRecDepth 8000

/-!
Shallow embedding of the crabby_dns DNS wire-format codec.

Machine integers are modelled as `Nat`; bytes are `Nat` values below 256 and
u16/u32 values arise from byte composition, so they stay in range wherever the
source keeps them in range; the one wrapping operation in scope
(`question_count += 1` on a u16) is modelled with an explicit `% 65536`, and
the `as u8` casts of the header decoder with an explicit `% 256`.  The fixed
512-byte packet buffer is modelled as a total function from index to byte
together with a cursor, mirroring `BytePacketBuffer` in src/buffer.rs.
Fallible Rust code returning `Result<T, BufferError>` is embedded as
`Except BufferError`.  Rust `String` values (domain names) are modelled as the
list of their UTF-8 bytes, so byte lengths and splitting on the dot byte 46
coincide with the source exactly.
-/

/- ### src/buffer.rs -/

/-- src/buffer.rs: `pub const BUF_SIZE: usize = 512;` -/
def BUF_SIZE : Nat := 512

/-- src/buffer.rs: `pub enum BufferError`.  The source enumeration has the
constructors IoError, ReadOverrun and WriteOverrun.  Two extra constructors are
embedding artifacts: `panicTodo` models the Rust `todo!()` macro, which aborts
the process instead of returning a `BufferError` value; `outOfFuel` marks
exhaustion of the fuel that drives the domain-name loop and is unreachable for
the fuel bound used below (`dnLoop_fuel_sufficient`). -/
inductive BufferError where
  | ioError
  | readOverrun
  | writeOverrun
  | panicTodo
  | outOfFuel
  deriving DecidableEq

/-- src/buffer.rs: `pub type Result<T> = std::result::Result<T, BufferError>;` -/
abbrev BufResult (α : Type) := Except BufferError α

/-- src/buffer.rs: `pub struct BytePacketBuffer { pub buf: [u8; BUF_SIZE], pos: usize }`.
The byte array is a total function from index to byte value. -/
structure BytePacketBuffer where
  buf : Nat → Nat
  pos : Nat

/-- src/buffer.rs `BytePacketBuffer::step`: increments the cursor, no bound check. -/
def BytePacketBuffer.step (b : BytePacketBuffer) (num_steps : Nat) : BytePacketBuffer :=
  { b with pos := b.pos + num_steps }

/-- src/buffer.rs `BytePacketBuffer::seek`: sets the cursor, no bound check. -/
def BytePacketBuffer.seek (b : BytePacketBuffer) (new_pos : Nat) : BytePacketBuffer :=
  { b with pos := new_pos }

/-- src/buffer.rs `BytePacketBuffer::peek`. -/
def BytePacketBuffer.peek (b : BytePacketBuffer) : BufResult Nat :=
  if b.pos ≥ BUF_SIZE then .error .readOverrun
  else .ok (b.buf b.pos)

/-- src/buffer.rs `BytePacketBuffer::peek_slice`: returns the view
`buf[start..start+len]` unless `start + len >= BUF_SIZE`. -/
def BytePacketBuffer.peek_slice (b : BytePacketBuffer) (start len : Nat) :
    BufResult (List Nat) :=
  if start + len ≥ BUF_SIZE then .error .readOverrun
  else .ok ((List.range len).map fun i => b.buf (start + i))

/-- src/buffer.rs `BytePacketBuffer::pop`: returns the byte at the cursor and
the buffer with the cursor advanced by one. -/
def BytePacketBuffer.pop (b : BytePacketBuffer) : BufResult (Nat × BytePacketBuffer) :=
  if b.pos ≥ BUF_SIZE then .error .readOverrun
  else .ok (b.buf b.pos, { b with pos := b.pos + 1 })

/-- src/buffer.rs `BytePacketBuffer::pop_u16`: two pops composed big-endian. -/
def BytePacketBuffer.pop_u16 (b : BytePacketBuffer) : BufResult (Nat × BytePacketBuffer) :=
  match b.pop with
  | .error e => .error e
  | .ok (hi, b1) =>
    match b1.pop with
    | .error e => .error e
    | .ok (lo, b2) => .ok ((hi <<< 8) ||| lo, b2)

/-- src/buffer.rs `BytePacketBuffer::pop_u32`: four pops composed big-endian. -/
def BytePacketBuffer.pop_u32 (b : BytePacketBuffer) : BufResult (Nat × BytePacketBuffer) :=
  match b.pop with
  | .error e => .error e
  | .ok (x3, b1) =>
    match b1.pop with
    | .error e => .error e
    | .ok (x2, b2) =>
      match b2.pop with
      | .error e => .error e
      | .ok (x1, b3) =>
        match b3.pop with
        | .error e => .error e
        | .ok (x0, b4) =>
          .ok ((x3 <<< 24) ||| (x2 <<< 16) ||| (x1 <<< 8) ||| x0, b4)

/-- src/buffer.rs `BytePacketBuffer::push`: writes at the cursor and advances,
fails WriteOverrun when the cursor is at capacity. -/
def BytePacketBuffer.push (b : BytePacketBuffer) (data : Nat) : BufResult BytePacketBuffer :=
  if b.pos ≥ BUF_SIZE then .error .writeOverrun
  else .ok { buf := fun i => if i = b.pos then data else b.buf i, pos := b.pos + 1 }

/-- The loop body of src/buffer.rs `BytePacketBuffer::push_slice`
(`for b in data { self.push(*b)?; }`), which is also the meaning the spec
assigns to push_slice: repeating `push` over the slice. -/
def pushl : BytePacketBuffer → List Nat → BufResult BytePacketBuffer
  | b, [] => .ok b
  | b, d :: ds =>
    match b.push d with
    | .error e => .error e
    | .ok b1 => pushl b1 ds

/-- src/buffer.rs `BytePacketBuffer::push_slice`: guards with
`pos + data.len() >= BUF_SIZE` and then runs the push loop. -/
def BytePacketBuffer.push_slice (b : BytePacketBuffer) (data : List Nat) :
    BufResult BytePacketBuffer :=
  if b.pos + data.length ≥ BUF_SIZE then .error .writeOverrun
  else pushl b data

/- ### src/dns/domain_name.rs -/

/-- src/dns/domain_name.rs: `pub struct DomainName(String)`.  The `String` is
modelled as the list of its UTF-8 bytes. -/
structure DomainName where
  raw : List Nat
  deriving DecidableEq

/-- src/dns/domain_name.rs `DomainName::new`. -/
def DomainName.new (raw_dn : List Nat) : DomainName := ⟨raw_dn⟩

/-- src/dns/domain_name.rs: `const DSER_MAX_JUMPS: usize = 5;` -/
def DSER_MAX_JUMPS : Nat := 5

/-- Byte-level model of the `String::from_utf8_lossy(label).to_lowercase()`
step of the decoder: ASCII uppercase bytes map to lowercase, every other byte
value is kept verbatim.  This is exact for ASCII input; no theorem in this file
depends on the decoded content of non-ASCII labels. -/
def lowerByte (v : Nat) : Nat :=
  if 65 ≤ v ∧ v ≤ 90 then v + 32 else v

/-- The label loop of src/dns/domain_name.rs `DomainName::serialize`:
`for label in dn.0.split(.) { if label.len() > 63 { todo!() };
push(len as u8); push_slice(label) }`. -/
def serializeLabels : List (List Nat) → BytePacketBuffer → BufResult BytePacketBuffer
  | [], b => .ok b
  | label :: rest, b =>
    if label.length > 63 then .error .panicTodo
    else
      match b.push (label.length % 256) with
      | .error e => .error e
      | .ok b1 =>
        match b1.push_slice label with
        | .error e => .error e
        | .ok b2 => serializeLabels rest b2

/-- src/dns/domain_name.rs `DomainName::serialize`: rejects (with a `todo!()`
panic) a name of byte length + 1 above 255, then writes each dot-delimited
label as a length byte plus the label bytes (a label longer than 63 bytes also
hits a `todo!()` panic), and terminates with a zero byte. -/
def DomainName.serialize (dn : DomainName) (b : BytePacketBuffer) : BufResult BytePacketBuffer :=
  if dn.raw.length + 1 > 255 then .error .panicTodo
  else
    match serializeLabels (dn.raw.splitOn 46) b with
    | .error e => .error e
    | .ok b1 => b1.push 0

/-- Fuel driving the decode loop of `DomainName::deserialize`.  The loop of the
source terminates because every label iteration moves the cursor strictly
forward inside the 512-byte buffer and at most 5 jumps are taken before the
`todo!()` panic; `dnLoop_fuel_sufficient` below shows this fuel is never
exhausted, so the fuel is an artifact, not a semantic bound. -/
def dnFuel : Nat := 3600

/-- The decode loop of src/dns/domain_name.rs `DomainName::deserialize`.
State threaded through the loop mirrors the local variables of the source:
the accumulated name bytes (`dn.0`), `jump_count` and `first_jump_pos`.
Each iteration pops a length byte: zero terminates; a byte with the top two
bits set together with the next byte forms a 14-bit pointer that the cursor
seeks to (at most `DSER_MAX_JUMPS` jumps, then a `todo!()` panic); otherwise
that many label bytes are appended lowercased, with a dot separator whenever
the byte after the label is not the terminator. -/
def dnLoop : Nat → BytePacketBuffer → List Nat → Nat → Option Nat →
    BufResult (List Nat × BytePacketBuffer × Option Nat)
  | 0, _, _, _, _ => .error .outOfFuel
  | fuel + 1, b, acc, jump_count, first_jump_pos =>
    match b.pop with
    | .error e => .error e
    | .ok (len, b1) =>
      if len = 0 then .ok (acc, b1, first_jump_pos)
      else if len &&& 0xC0 = 0xC0 then
        if jump_count + 1 > DSER_MAX_JUMPS then .error .panicTodo
        else
          match b1.pop with
          | .error e => .error e
          | .ok (lo, b2) =>
            dnLoop fuel (b2.seek (((len <<< 8) ||| lo) ^^^ 0xC000)) acc (jump_count + 1)
              (if first_jump_pos = none then some b.pos else first_jump_pos)
      else
        match b1.peek_slice b1.pos len with
        | .error e => .error e
        | .ok label =>
          match (b1.step len).peek with
          | .error e => .error e
          | .ok nxt =>
            dnLoop fuel (b1.step len)
              (if nxt = 0 then acc ++ label.map lowerByte
               else acc ++ label.map lowerByte ++ [46])
              jump_count first_jump_pos

/-- src/dns/domain_name.rs `DomainName::deserialize`: runs the decode loop
from the current cursor and, if any jump occurred (`first_jump_pos` was set),
seeks the cursor to that first jump position plus 2. -/
def DomainName.deserialize (b : BytePacketBuffer) : BufResult (DomainName × BytePacketBuffer) :=
  match dnLoop dnFuel b [] 0 none with
  | .error e => .error e
  | .ok (acc, b1, first_jump_pos) =>
    match first_jump_pos with
    | some p => .ok (⟨acc⟩, b1.seek (p + 2))
    | none => .ok (⟨acc⟩, b1)

/- ### src/dns/header.rs -/

/-- src/dns/header.rs `enum MessageType`. -/
inductive MessageType where
  | query
  | response
  deriving DecidableEq

/-- src/dns/header.rs `impl From<bool> for MessageType`. -/
def messageTypeOfBool : Bool → MessageType
  | false => .query
  | true => .response

/-- src/dns/header.rs `enum OpCode`: an open enumeration. -/
inductive OpCode where
  | query
  | unknown (val : Nat)
  deriving DecidableEq

/-- src/dns/header.rs `impl From<u8> for OpCode`: 0 maps to Query, anything
else is preserved as Unknown. -/
def opCodeOfNat (val : Nat) : OpCode :=
  if val = 0 then .query else .unknown val

/-- src/dns/header.rs `enum ResponseCode`: an open enumeration. -/
inductive ResponseCode where
  | noError
  | formatError
  | servFail
  | nameError
  | notImpl
  | refused
  | unknown (val : Nat)
  deriving DecidableEq

/-- src/dns/header.rs `impl From<u8> for ResponseCode`. -/
def responseCodeOfNat (val : Nat) : ResponseCode :=
  if val = 0 then .noError
  else if val = 1 then .formatError
  else if val = 2 then .servFail
  else if val = 3 then .nameError
  else if val = 4 then .notImpl
  else if val = 5 then .refused
  else .unknown val

/-- src/dns/header.rs `struct Header`. -/
structure Header where
  id : Nat
  message_type : MessageType
  op_code : OpCode
  authoritative_answer : Bool
  truncation : Bool
  recursion_desired : Bool
  recursion_available : Bool
  authentic_data : Bool
  checking_disabled : Bool
  response_code : ResponseCode
  question_count : Nat
  answer_count : Nat
  authority_count : Nat
  additional_count : Nat
  deriving DecidableEq

/-- src/dns/header.rs `Header::new`. -/
def Header.new : Header :=
  { id := 0
    message_type := .query
    op_code := .query
    authoritative_answer := false
    truncation := false
    recursion_desired := false
    recursion_available := false
    authentic_data := false
    checking_disabled := false
    response_code := .noError
    question_count := 0
    answer_count := 0
    authority_count := 0
    additional_count := 0 }

/-- src/dns/header.rs `Header::deserialize`: pops id, the flags word and the
four counts.  The opcode field is computed exactly as the source does:
`((flags & (0xF << 11)) as u8).into()`, where the cast to u8 is `% 256`. -/
def Header.deserialize (b : BytePacketBuffer) : BufResult (Header × BytePacketBuffer) :=
  match b.pop_u16 with
  | .error e => .error e
  | .ok (id, b1) =>
  match b1.pop_u16 with
  | .error e => .error e
  | .ok (flags, b2) =>
  match b2.pop_u16 with
  | .error e => .error e
  | .ok (qc, b3) =>
  match b3.pop_u16 with
  | .error e => .error e
  | .ok (ac, b4) =>
  match b4.pop_u16 with
  | .error e => .error e
  | .ok (nc, b5) =>
  match b5.pop_u16 with
  | .error e => .error e
  | .ok (arc, b6) =>
    .ok ({ id := id
           message_type := messageTypeOfBool (decide ((flags &&& (0x1 <<< 15)) ≠ 0))
           op_code := opCodeOfNat ((flags &&& (0xF <<< 11)) % 256)
           authoritative_answer := decide ((flags &&& (0x1 <<< 10)) ≠ 0)
           truncation := decide ((flags &&& (0x1 <<< 9)) ≠ 0)
           recursion_desired := decide ((flags &&& (0x1 <<< 8)) ≠ 0)
           recursion_available := decide ((flags &&& (0x1 <<< 7)) ≠ 0)
           authentic_data := decide ((flags &&& (0x1 <<< 5)) ≠ 0)
           checking_disabled := decide ((flags &&& (0x1 <<< 4)) ≠ 0)
           response_code := responseCodeOfNat ((flags &&& 0xF) % 256)
           question_count := qc
           answer_count := ac
           authority_count := nc
           additional_count := arc }, b6)

/- ### src/dns/rr.rs and src/dns/question.rs -/

/-- src/dns/rr.rs `enum RRType`: an open enumeration. -/
inductive RRType where
  | a
  | unknown (val : Nat)
  deriving DecidableEq

/-- src/dns/rr.rs `impl From<u16> for RRType`. -/
def rrtypeOfNat (val : Nat) : RRType :=
  if val = 1 then .a else .unknown val

/-- src/dns/rr.rs `enum RRClass`: an open enumeration. -/
inductive RRClass where
  | inet
  | unknown (val : Nat)
  deriving DecidableEq

/-- src/dns/rr.rs `impl From<u16> for RRClass`. -/
def rrclassOfNat (val : Nat) : RRClass :=
  if val = 1 then .inet else .unknown val

/-- src/dns/question.rs `enum QueryType`. -/
inductive QueryType where
  | rrtype (t : RRType)
  | unknown (val : Nat)
  deriving DecidableEq

/-- src/dns/question.rs `impl From<u16> for QueryType`: wraps the recognized
RRType, or keeps the unrecognized numeric value. -/
def queryTypeOfNat (val : Nat) : QueryType :=
  match rrtypeOfNat val with
  | .unknown inner_val => .unknown inner_val
  | t => .rrtype t

/-- src/dns/question.rs `enum QueryClass`. -/
inductive QueryClass where
  | rrclass (c : RRClass)
  | unknown (val : Nat)
  deriving DecidableEq

/-- src/dns/question.rs `impl From<u16> for QueryClass`. -/
def queryClassOfNat (val : Nat) : QueryClass :=
  match rrclassOfNat val with
  | .unknown inner_val => .unknown inner_val
  | c => .rrclass c

/-- src/dns/question.rs `struct Question`. -/
structure Question where
  domain_name : DomainName
  qtype : QueryType
  qclass : QueryClass
  deriving DecidableEq

/-- src/dns/question.rs `Question::new`. -/
def Question.new (domain_name : DomainName) (qtype : QueryType) (qclass : QueryClass) :
    Question :=
  { domain_name := domain_name, qtype := qtype, qclass := qclass }

/-- src/dns/question.rs `Question::deserialize`: a domain name followed by the
qtype and qclass u16 fields. -/
def Question.deserialize (b : BytePacketBuffer) : BufResult (Question × BytePacketBuffer) :=
  match DomainName.deserialize b with
  | .error e => .error e
  | .ok (dn, b1) =>
    match b1.pop_u16 with
    | .error e => .error e
    | .ok (qt, b2) =>
      match b2.pop_u16 with
      | .error e => .error e
      | .ok (qc, b3) => .ok (Question.new dn (queryTypeOfNat qt) (queryClassOfNat qc), b3)

/-- src/dns/rr.rs `enum RRData`: the address variant holds the four IPv4
octets (the source builds an `Ipv4Addr` from them); the unknown variant holds
only the declared rdata length. -/
inductive RRData where
  | a (o3 o2 o1 o0 : Nat)
  | unknown (len : Nat)
  deriving DecidableEq

/-- src/dns/rr.rs `struct ResourceRecord`. -/
structure ResourceRecord where
  domain_name : DomainName
  rrtype : RRType
  rrclass : RRClass
  ttl : Nat
  rrdata_len : Nat
  rrdata : RRData
  deriving DecidableEq

/-- The first five reads of src/dns/rr.rs `ResourceRecord::deserialize`:
name, type, class, ttl and rdata length, ending immediately after the
rdlength field. -/
def rrFields (b : BytePacketBuffer) :
    BufResult ((DomainName × Nat × Nat × Nat × Nat) × BytePacketBuffer) :=
  match DomainName.deserialize b with
  | .error e => .error e
  | .ok (dn, b1) =>
  match b1.pop_u16 with
  | .error e => .error e
  | .ok (t, b2) =>
  match b2.pop_u16 with
  | .error e => .error e
  | .ok (c, b3) =>
  match b3.pop_u32 with
  | .error e => .error e
  | .ok (ttl, b4) =>
  match b4.pop_u16 with
  | .error e => .error e
  | .ok (len, b5) => .ok ((dn, t, c, ttl, len), b5)

/-- src/dns/rr.rs `ResourceRecord::deserialize`: reads name, type, class, ttl
and rdata length, then dispatches on the type: the A type reads four further
bytes as the IPv4 octets; an unrecognized type stores only the declared rdata
length and reads nothing further. -/
def ResourceRecord.deserialize (b : BytePacketBuffer) :
    BufResult (ResourceRecord × BytePacketBuffer) :=
  match DomainName.deserialize b with
  | .error e => .error e
  | .ok (dn, b1) =>
  match b1.pop_u16 with
  | .error e => .error e
  | .ok (t, b2) =>
  match b2.pop_u16 with
  | .error e => .error e
  | .ok (c, b3) =>
  match b3.pop_u32 with
  | .error e => .error e
  | .ok (ttl, b4) =>
  match b4.pop_u16 with
  | .error e => .error e
  | .ok (len, b5) =>
    match rrtypeOfNat t with
    | .a =>
      match b5.pop_u32 with
      | .error e => .error e
      | .ok (octets, b6) =>
        .ok ({ domain_name := dn
               rrtype := rrtypeOfNat t
               rrclass := rrclassOfNat c
               ttl := ttl
               rrdata_len := len
               rrdata := .a ((octets >>> 24) &&& 0xFF) ((octets >>> 16) &&& 0xFF)
                 ((octets >>> 8) &&& 0xFF) (octets &&& 0xFF) }, b6)
    | .unknown _ =>
      .ok ({ domain_name := dn
             rrtype := rrtypeOfNat t
             rrclass := rrclassOfNat c
             ttl := ttl
             rrdata_len := len
             rrdata := .unknown len }, b5)

/- ### src/dns/message.rs -/

/-- src/dns/message.rs `struct Message`. -/
structure Message where
  header : Header
  questions : List Question
  answers : List ResourceRecord
  authorities : List ResourceRecord
  additionals : List ResourceRecord
  deriving DecidableEq

/-- src/dns/message.rs `Message::new`. -/
def Message.new : Message :=
  { header := Header.new
    questions := []
    answers := []
    authorities := []
    additionals := [] }

/-- src/dns/message.rs `Message::push_question`: appends the question and
executes `self.header.question_count += 1` on a u16, modelled with the
explicit wrap `% 65536`. -/
def Message.push_question (m : Message) (question : Question) : Message :=
  { m with
    questions := m.questions ++ [question]
    header := { m.header with
      question_count := (m.header.question_count + 1) % 65536 } }

/-- One count-driven section loop of src/dns/message.rs `Message::deserialize`
(`for _ in 0..count { vec.push(X::deserialize(buf)?) }`): decodes exactly `n`
items in order, stopping at the first error. -/
def repeatDecode {α : Type} (f : BytePacketBuffer → BufResult (α × BytePacketBuffer)) :
    Nat → BytePacketBuffer → BufResult (List α × BytePacketBuffer)
  | 0, b => .ok ([], b)
  | n + 1, b =>
    match f b with
    | .error e => .error e
    | .ok (x, b1) =>
      match repeatDecode f n b1 with
      | .error e => .error e
      | .ok (rest, b2) => .ok (x :: rest, b2)

/-- src/dns/message.rs `Message::deserialize`: decodes the header first, then
its four counts drive that many question and record decodes in order. -/
def Message.deserialize (b : BytePacketBuffer) : BufResult (Message × BytePacketBuffer) :=
  match Header.deserialize b with
  | .error e => .error e
  | .ok (hdr, b1) =>
  match repeatDecode Question.deserialize hdr.question_count b1 with
  | .error e => .error e
  | .ok (qs, b2) =>
  match repeatDecode ResourceRecord.deserialize hdr.answer_count b2 with
  | .error e => .error e
  | .ok (ans, b3) =>
  match repeatDecode ResourceRecord.deserialize hdr.authority_count b3 with
  | .error e => .error e
  | .ok (auths, b4) =>
  match repeatDecode ResourceRecord.deserialize hdr.additional_count b4 with
  | .error e => .error e
  | .ok (adds, b5) =>
    .ok ({ header := hdr
           questions := qs
           answers := ans
           authorities := auths
           additionals := adds }, b5)

/- ### Concrete inputs used by witnesses and counterexamples -/

/-- A buffer whose cursor sits at the last valid index. -/
def b511 : BytePacketBuffer := ⟨fun _ => 0, 511⟩

/-- A buffer holding a self-referencing compression pointer at offset 0:
bytes C0 00, a pointer chain that never reaches a terminator. -/
def c1Buf : BytePacketBuffer := ⟨fun i => [0xC0, 0x00].getD i 0, 0⟩

/-- A buffer whose name at offset 0 is a label followed by a pointer:
[1 a C0 06], with the pointer target [1 b 00] at offset 6. -/
def c2Buf : BytePacketBuffer := ⟨fun i => [1, 97, 0xC0, 6, 0, 0, 1, 98, 0].getD i 0, 0⟩

/-- A buffer holding the name [1 a 00] at offset 0 and a bare pointer to it at
offset 3, with the cursor on the pointer. -/
def w2Buf : BytePacketBuffer := ⟨fun i => [1, 97, 0, 0xC0, 0].getD i 0, 3⟩

/-- A 12-byte header whose flags word 0x0800 carries wire opcode 1 in bits
11 to 14, all other bytes zero. -/
def c3Buf : BytePacketBuffer := ⟨fun i => [0, 0, 0x08, 0x00].getD i 0, 0⟩

/-- A resource record at offset 0: root name (00), type 2 (unrecognized),
class 1, ttl 60, rdlength 4, followed by 4 rdata bytes the decoder must skip
but does not. -/
def c4Buf : BytePacketBuffer :=
  ⟨fun i => [0, 0, 2, 0, 1, 0, 0, 0, 60, 0, 4, 9, 9, 9, 9].getD i 0, 0⟩

/-- An all-zero message except question_count = 200: question decodes walk off
the end of the 512-byte buffer after 100 questions. -/
def c5Buf : BytePacketBuffer := ⟨fun i => if i = 5 then 200 else 0, 0⟩

/-- The all-zero buffer: a header with all counts zero. -/
def zeroBuf : BytePacketBuffer := ⟨fun _ => 0, 0⟩

/-- A concrete question (root name, qtype A, qclass IN). -/
def q0 : Question := Question.new (DomainName.new []) (queryTypeOfNat 1) (queryClassOfNat 1)

/-- A message whose u16 question counter sits at its maximum value. -/
def mBig : Message := { Message.new with header := { Header.new with question_count := 65535 } }

/-! ## Theorems -/

/- ### Helper lemmas about the buffer primitives -/

theorem pushl_ok : ∀ (data : List Nat) (b : BytePacketBuffer),
    b.pos + data.length ≤ BUF_SIZE →
    ∃ b1, pushl b data = .ok b1 ∧ b1.pos = b.pos + data.length ∧
      ∀ i, b1.buf i = if b.pos ≤ i ∧ i < b.pos + data.length
        then data.getD (i - b.pos) 0 else b.buf i := by
  intro data
  induction data with
  | nil =>
    intro b _
    refine ⟨b, rfl, by simp, ?_⟩
    intro i
    rw [if_neg (by simp only [List.length_nil]; omega)]
  | cons d ds ih =>
    intro b hlen
    have hpos : b.pos < BUF_SIZE := by
      simp [List.length] at hlen; omega
    have hpush : b.push d =
        .ok { buf := fun i => if i = b.pos then d else b.buf i, pos := b.pos + 1 } := by
      simp [BytePacketBuffer.push, Nat.not_le.mpr hpos]
    set b1 : BytePacketBuffer :=
      { buf := fun i => if i = b.pos then d else b.buf i, pos := b.pos + 1 } with hb1
    have hlen1 : b1.pos + ds.length ≤ BUF_SIZE := by
      simp [hb1, List.length] at *; omega
    obtain ⟨b2, hrun, hpos2, hbuf2⟩ := ih b1 hlen1
    refine ⟨b2, ?_, ?_, ?_⟩
    · simp only [pushl, hpush, hrun]
    · simp [hpos2, hb1, List.length]; omega
    · intro i
      have := hbuf2 i
      rw [this]
      by_cases h1 : b1.pos ≤ i ∧ i < b1.pos + ds.length
      · rw [if_pos h1, if_pos (by simp [hb1] at h1 ⊢; omega)]
        have hge : b.pos + 1 ≤ i := by simp [hb1] at h1; omega
        have : i - b.pos = (i - (b.pos + 1)) + 1 := by omega
        rw [this, List.getD_cons_succ]
      · rw [if_neg h1]
        by_cases h2 : i = b.pos
        · subst h2
          rw [if_pos (by simp only [List.length_cons]; omega)]
          simp [hb1]
        · simp only [hb1]
          rw [if_neg h2, if_neg (by simp [hb1, List.length] at h1 ⊢; omega)]

/- ### Claim C7 -/

/-- Claim C7: for every start and len, peek_slice returns the view of len bytes
beginning at start when start+len is strictly below the 512-byte capacity, and
fails with ReadOverrun exactly when start+len is not strictly below capacity,
so a range ending exactly at capacity is rejected. -/
theorem c7_peek_slice_strict_bound (b : BytePacketBuffer) (start len : Nat) :
    (start + len < BUF_SIZE →
      b.peek_slice start len = .ok ((List.range len).map fun i => b.buf (start + i))) ∧
    (b.peek_slice start len = .error .readOverrun ↔ BUF_SIZE ≤ start + len) := by
  constructor
  · intro h
    simp [BytePacketBuffer.peek_slice, Nat.not_le.mpr h]
  · constructor
    · intro h
      by_contra hc
      have hlt : start + len < BUF_SIZE := Nat.not_le.mp hc
      simp [BytePacketBuffer.peek_slice, Nat.not_le.mpr hlt] at h
    · intro h
      simp [BytePacketBuffer.peek_slice, h]

/-- Claim C7 witness: evaluates peek_slice on a concrete buffer both inside the
bound (start 5, len 4 over the identity byte pattern) and on a range whose end
lands exactly at capacity (start 508, len 4), which is rejected. -/
theorem c7_peek_slice_strict_bound_witness :
    ((⟨fun i => i, 0⟩ : BytePacketBuffer).peek_slice 5 4 = .ok [5, 6, 7, 8]) ∧
    ((⟨fun i => i, 0⟩ : BytePacketBuffer).peek_slice 508 4 = .error .readOverrun) := by
  constructor
  · have h := (c7_peek_slice_strict_bound ⟨fun i => i, 0⟩ 5 4).1 (by decide)
    rw [h]
    rfl
  · exact (c7_peek_slice_strict_bound ⟨fun i => i, 0⟩ 508 4).2.mpr (by decide)

/- ### Claim C9 -/

/-- Claim C9 counterexample: with the cursor at index 511 and a one-byte slice,
repeating push succeeds (the final byte lands exactly at the last capacity
position) but push_slice rejects the write with WriteOverrun, so push_slice is
not equivalent to pushing each byte individually. -/
theorem c9_push_slice_cex :
    b511.push_slice [7] = .error .writeOverrun ∧
    pushl b511 [7] = .ok ⟨fun i => if i = 511 then 7 else 0, 512⟩ := by
  constructor
  · rfl
  · rfl

/-- Claim C9 amended: push_slice fails with WriteOverrun exactly when
pos + len is not strictly below capacity -- one byte stricter than repeating
push, which would accept a write whose last byte lands at index 511.  When
pos + len is strictly below capacity, push_slice coincides with repeating push
over the slice: same success, same final cursor pos + len, and the bytes of the
slice written in order at pos. -/
theorem c9_push_slice_amended (b : BytePacketBuffer) (data : List Nat) :
    (BUF_SIZE ≤ b.pos + data.length → b.push_slice data = .error .writeOverrun) ∧
    (b.pos + data.length < BUF_SIZE →
      b.push_slice data = pushl b data ∧
      ∃ b1, pushl b data = .ok b1 ∧ b1.pos = b.pos + data.length ∧
        ∀ i, b1.buf i = if b.pos ≤ i ∧ i < b.pos + data.length
          then data.getD (i - b.pos) 0 else b.buf i) := by
  constructor
  · intro h
    simp [BytePacketBuffer.push_slice, h]
  · intro h
    refine ⟨by simp [BytePacketBuffer.push_slice, Nat.not_le.mpr h], ?_⟩
    exact pushl_ok data b (Nat.le_of_lt h)

/-- Claim C9 witness: applies the amended theorem at concrete inputs, once on
the rejected boundary write at cursor 511 and once on an accepted two-byte
write at cursor 0. -/
theorem c9_push_slice_amended_witness :
    (b511.push_slice [9] = .error .writeOverrun) ∧
    ((⟨fun _ => 0, 0⟩ : BytePacketBuffer).push_slice [1, 2] =
      pushl ⟨fun _ => 0, 0⟩ [1, 2]) := by
  exact ⟨(c9_push_slice_amended b511 [9]).1 (by decide),
    ((c9_push_slice_amended ⟨fun _ => 0, 0⟩ [1, 2]).2 (by decide)).1⟩

/- ### Inversion lemmas for the read primitives -/

theorem pop_ok {b : BytePacketBuffer} {len : Nat} {b1 : BytePacketBuffer}
    (h : b.pop = .ok (len, b1)) :
    b.pos < BUF_SIZE ∧ len = b.buf b.pos ∧ b1 = { b with pos := b.pos + 1 } := by
  unfold BytePacketBuffer.pop at h
  split at h
  · exact Except.noConfusion h
  · rename_i hp
    injection h with h
    injection h with ha hb
    exact ⟨Nat.not_le.mp hp, ha.symm, hb.symm⟩

theorem pop_error {b : BytePacketBuffer} {e : BufferError} (h : b.pop = .error e) :
    e = .readOverrun := by
  unfold BytePacketBuffer.pop at h
  split at h
  · injection h with h
    exact h.symm
  · exact Except.noConfusion h

theorem peek_ok {b : BytePacketBuffer} {v : Nat} (h : b.peek = .ok v) :
    b.pos < BUF_SIZE ∧ v = b.buf b.pos := by
  unfold BytePacketBuffer.peek at h
  split at h
  · exact Except.noConfusion h
  · rename_i hp
    injection h with h
    exact ⟨Nat.not_le.mp hp, h.symm⟩

/- ### Lemmas about the domain-name decode loop -/

theorem dnLoop_fjp_set : ∀ (fuel : Nat) (b : BytePacketBuffer) (acc : List Nat)
    (jc p : Nat) (l : List Nat) (b1 : BytePacketBuffer) (fjp : Option Nat),
    dnLoop fuel b acc jc (some p) = .ok (l, b1, fjp) → fjp = some p := by
  intro fuel
  induction fuel with
  | zero =>
    intro b acc jc p l b1 fjp h
    exact Except.noConfusion h
  | succ f ih =>
    intro b acc jc p l b1 fjp h
    simp only [dnLoop] at h
    split at h
    · exact Except.noConfusion h
    · split at h
      · injection h with h
        injection h with _ h
        injection h with _ h
        exact h.symm
      · split at h
        · split at h
          · exact Except.noConfusion h
          · split at h
            · exact Except.noConfusion h
            · rw [if_neg (by simp)] at h
              exact ih _ _ _ _ _ _ _ h
        · split at h
          · exact Except.noConfusion h
          · split at h
            · exact Except.noConfusion h
            · exact ih _ _ _ _ _ _ _ h

theorem dnLoop_first_jump : ∀ (fuel : Nat) (b : BytePacketBuffer) (acc : List Nat)
    (jc : Nat) (l : List Nat) (b1 : BytePacketBuffer) (p : Nat),
    dnLoop fuel b acc jc none = .ok (l, b1, some p) →
    b.buf p &&& 0xC0 = 0xC0 ∧ b.pos ≤ p ∧ p < BUF_SIZE ∧
      (b.buf b.pos &&& 0xC0 = 0xC0 → p = b.pos) := by
  intro fuel
  induction fuel with
  | zero =>
    intro b acc jc l b1 p h
    exact Except.noConfusion h
  | succ f ih =>
    intro b acc jc l b1 p h
    simp only [dnLoop] at h
    split at h
    · exact Except.noConfusion h
    · rename_i len bnext heq
      obtain ⟨hpos, hlen, hbn⟩ := pop_ok heq
      split at h
      · rename_i hzero
        injection h with h
        injection h with _ h
        injection h with _ h
        exact Option.noConfusion h
      · rename_i hzero
        split at h
        · rename_i htag
          split at h
          · exact Except.noConfusion h
          · split at h
            · exact Except.noConfusion h
            · rw [if_pos trivial] at h
              have hp := dnLoop_fjp_set f _ _ _ _ _ _ _ h
              injection hp with hp
              subst hp
              exact ⟨hlen ▸ htag, Nat.le_refl _, hpos, fun _ => rfl⟩
        · rename_i htag
          split at h
          · exact Except.noConfusion h
          · split at h
            · exact Except.noConfusion h
            · have hrec := ih _ _ _ _ _ _ h
              obtain ⟨h1, h2, h3, _⟩ := hrec
              have hbuf : (bnext.step len).buf = b.buf := by
                rw [hbn]
                rfl
              have hpos2 : b.pos ≤ (bnext.step len).pos := by
                rw [hbn]
                simp [BytePacketBuffer.step]
                omega
              refine ⟨hbuf ▸ h1, Nat.le_trans hpos2 h2, h3, ?_⟩
              intro htag2
              exact absurd (hlen ▸ htag2) htag

theorem dnLoop_fuel_sufficient : ∀ (fuel : Nat) (b : BytePacketBuffer) (acc : List Nat)
    (jc : Nat) (fjp : Option Nat),
    (DSER_MAX_JUMPS - jc) * (BUF_SIZE + 1) + (BUF_SIZE - b.pos) < fuel →
    dnLoop fuel b acc jc fjp ≠ .error .outOfFuel := by
  intro fuel
  induction fuel with
  | zero =>
    intro b acc jc fjp h
    omega
  | succ f ih =>
    intro b acc jc fjp h hcontra
    simp only [dnLoop] at hcontra
    split at hcontra
    · rename_i e heq
      have := pop_error heq
      injection hcontra with hcontra
      rw [this] at hcontra
      exact BufferError.noConfusion hcontra
    · rename_i len bnext heq
      obtain ⟨hpos, hlen, hbn⟩ := pop_ok heq
      split at hcontra
      · exact Except.noConfusion hcontra
      · split at hcontra
        · split at hcontra
          · injection hcontra with hcontra
            exact BufferError.noConfusion hcontra
          · rename_i hguard
            split at hcontra
            · rename_i e heq2
              have := pop_error heq2
              injection hcontra with hcontra
              rw [this] at hcontra
              exact BufferError.noConfusion hcontra
            · refine ih _ _ _ _ ?_ hcontra
              simp only [DSER_MAX_JUMPS, BUF_SIZE] at h hguard ⊢
              omega
        · split at hcontra
          · rename_i e heq2
            unfold BytePacketBuffer.peek_slice at heq2
            split at heq2
            · injection heq2 with heq2
              injection hcontra with hcontra
              rw [← heq2] at hcontra
              exact BufferError.noConfusion hcontra
            · exact Except.noConfusion heq2
          · rename_i label heq2
            split at hcontra
            · rename_i e heq3
              unfold BytePacketBuffer.peek at heq3
              split at heq3
              · injection heq3 with heq3
                injection hcontra with hcontra
                rw [← heq3] at hcontra
                exact BufferError.noConfusion hcontra
              · exact Except.noConfusion heq3
            · rename_i nxt heq3
              refine ih _ _ _ _ ?_ hcontra
              have hlt := (peek_ok heq3).1
              rw [hbn] at hlt ⊢
              simp only [BytePacketBuffer.step, BUF_SIZE, DSER_MAX_JUMPS] at h hlt ⊢
              omega

/- ### Claim C1 -/

/-- Claim C1 (code bug): on a buffer holding a self-referencing compression
pointer the decode loop takes jump after jump and, once the jump count exceeds
DSER_MAX_JUMPS = 5, the source executes the todo!() macro -- a process-aborting
panic, modelled here as the panicTodo outcome -- instead of returning a typed,
recoverable TooManyJumps error (BufferError has no such constructor).  The
second conjunct shows the loop does not run forever on any buffer: the fuel of
the embedding is never exhausted. -/
theorem c1_pointer_chain_hits_todo_panic :
    DomainName.deserialize c1Buf = .error .panicTodo ∧
    ∀ b : BytePacketBuffer, DomainName.deserialize b ≠ .error .outOfFuel := by
  constructor
  · rfl
  · intro b hcontra
    have hloop : dnLoop dnFuel b [] 0 none ≠ .error .outOfFuel := by
      apply dnLoop_fuel_sufficient
      simp only [DSER_MAX_JUMPS, BUF_SIZE, dnFuel]
      omega
    unfold DomainName.deserialize at hcontra
    split at hcontra
    · rename_i e heq
      injection hcontra with hcontra
      rw [hcontra] at heq
      exact hloop heq
    · split at hcontra <;> exact Except.noConfusion hcontra

/- ### Claim C2 -/

/-- Claim C2 counterexample: the name at offset 0 of c2Buf is a label followed
by a compression pointer; its decode begins at cursor 0, one jump occurs, and
the decoder leaves the cursor at 4 = (first pointer position 2) + 2, not at
(decode start) + 2 = 2 as the claim states. -/
theorem c2_cursor_cex :
    c2Buf.pos = 0 ∧
    DomainName.deserialize c2Buf = .ok (⟨[97, 46, 98]⟩, { c2Buf with pos := 4 }) ∧
    (4 : Nat) ≠ c2Buf.pos + 2 := by
  refine ⟨rfl, rfl, by decide⟩

/-- Claim C2 amended: when at least one compression jump occurs during a
domain-name decode (the loop reports a first jump position p), the decoder
leaves the cursor at p + 2, exactly 2 bytes past the starting position of the
first pointer encountered; p carries a pointer tag (top two bits set), lies at
or after the position where the decode began, and when the name starts
directly with a pointer, p is precisely the position where the decode began,
so the cursor then also equals (decode start) + 2. -/
theorem c2_cursor_after_first_jump (b : BytePacketBuffer) (l : List Nat)
    (b1 : BytePacketBuffer) (p : Nat)
    (h : dnLoop dnFuel b [] 0 none = .ok (l, b1, some p)) :
    DomainName.deserialize b = .ok (⟨l⟩, { b1 with pos := p + 2 }) ∧
    b.buf p &&& 0xC0 = 0xC0 ∧ b.pos ≤ p ∧ p < BUF_SIZE ∧
    (b.buf b.pos &&& 0xC0 = 0xC0 → p = b.pos) := by
  obtain ⟨h1, h2, h3, h4⟩ := dnLoop_first_jump dnFuel b [] 0 l b1 p h
  refine ⟨?_, h1, h2, h3, h4⟩
  unfold DomainName.deserialize
  rw [h]
  rfl

/-- Claim C2 witness: w2Buf holds a name that is a bare pointer at cursor
position 3 to the prior name [1 a 00] at offset 0; the decode follows one jump,
yields the same name bytes, and the cursor lands at 3 + 2, exactly 2 bytes past
the starting position of the pointer (= the position where the decode began). -/
theorem c2_cursor_after_first_jump_witness :
    DomainName.deserialize w2Buf = .ok (⟨[97]⟩, { w2Buf with pos := 3 + 2 }) ∧
    w2Buf.buf 3 &&& 0xC0 = 0xC0 := by
  have h := c2_cursor_after_first_jump w2Buf [97] w2Buf 3 rfl
  exact ⟨h.1, h.2.1⟩

/- ### Claim C8 -/

/-- Claim C8 (code bug): serialization of a domain name with a label longer
than 63 bytes, or with a total size beyond the 255 limit, executes the todo!()
macro -- a process-aborting panic, modelled as the panicTodo outcome -- instead
of returning a typed, recoverable EncodeTooLong error (BufferError has no such
constructor).  First conjunct: a single 64-byte label; second: a 255-byte name
whose length check trips before any label is examined. -/
theorem c8_serialize_hits_todo_panic :
    DomainName.serialize (DomainName.new (List.replicate 64 97)) zeroBuf =
      .error .panicTodo ∧
    DomainName.serialize (DomainName.new (List.replicate 255 97)) zeroBuf =
      .error .panicTodo := by
  constructor
  · rfl
  · rfl

/- ### Claim C3 -/

theorem opcode_mask_mod_zero (flags : Nat) : (flags &&& (0xF <<< 11)) % 256 = 0 := by
  apply Nat.eq_of_testBit_eq
  intro i
  have h256 : (256 : Nat) = 2 ^ 8 := by norm_num
  rw [h256, Nat.testBit_mod_two_pow, Nat.testBit_and, Nat.zero_testBit]
  by_cases hi : i < 8
  · have hmask : Nat.testBit 30720 i = false := by
      interval_cases i <;> decide
    simp [hmask]
  · simp [hi]

/-- Claim C3 (code bug): the source computes the opcode as
`((flags & (0xF << 11)) as u8).into()`; the cast to u8 keeps only the low 8
bits, but the mask keeps only bits 11 to 14, so the cast result is always 0 and
every decoded header carries OpCode::Query regardless of the wire opcode.  The
closing conjuncts evaluate the decoder on a header whose flags word 0x0800
carries wire opcode 1: the claim demands Unknown(1), the code yields Query. -/
theorem c3_decoded_opcode_always_query :
    (∀ (b : BytePacketBuffer) (hdr : Header) (b1 : BytePacketBuffer),
      Header.deserialize b = .ok (hdr, b1) → hdr.op_code = .query) ∧
    Header.deserialize c3Buf = .ok (Header.new, { c3Buf with pos := 12 }) ∧
    OpCode.query ≠ OpCode.unknown 1 := by
  refine ⟨?_, rfl, by decide⟩
  intro b hdr b1 h
  unfold Header.deserialize at h
  split at h
  · exact Except.noConfusion h
  · split at h
    · exact Except.noConfusion h
    · rename_i flags bf heq
      split at h
      · exact Except.noConfusion h
      · split at h
        · exact Except.noConfusion h
        · split at h
          · exact Except.noConfusion h
          · split at h
            · exact Except.noConfusion h
            · simp only [Except.ok.injEq, Prod.mk.injEq] at h
              obtain ⟨hhdr, _⟩ := h
              rw [← hhdr]
              simp only [opcode_mask_mod_zero]
              rfl

/-- Claim C3 witness: applies the theorem to the concrete header c3Buf whose
wire opcode is 1, concluding that the decoded opcode is Query. -/
theorem c3_decoded_opcode_always_query_witness :
    Header.new.op_code = OpCode.query := by
  exact c3_decoded_opcode_always_query.1 c3Buf Header.new { c3Buf with pos := 12 } rfl

/- ### Claim C4 -/

/-- Claim C4: after deserializing a resource record of an unrecognized type,
the result records only the declared rdata length as the opaque RRData.Unknown
marker, and the final buffer is exactly the state reached immediately after
reading the rdlength field: the cursor does not advance over the rdata bytes. -/
theorem c4_unknown_type_rdata_unconsumed (b : BytePacketBuffer)
    (dn : DomainName) (t c ttl len : Nat) (b5 : BytePacketBuffer) (v : Nat)
    (hf : rrFields b = .ok ((dn, t, c, ttl, len), b5))
    (ht : rrtypeOfNat t = .unknown v) :
    ResourceRecord.deserialize b =
      .ok ({ domain_name := dn
             rrtype := .unknown v
             rrclass := rrclassOfNat c
             ttl := ttl
             rrdata_len := len
             rrdata := .unknown len }, b5) := by
  unfold rrFields at hf
  split at hf
  · exact Except.noConfusion hf
  · rename_i dn0 b1 heq1
    split at hf
    · exact Except.noConfusion hf
    · rename_i t0 b2 heq2
      split at hf
      · exact Except.noConfusion hf
      · rename_i c0 b3 heq3
        split at hf
        · exact Except.noConfusion hf
        · rename_i ttl0 b4 heq4
          split at hf
          · exact Except.noConfusion hf
          · rename_i len0 b5x heq5
            simp only [Except.ok.injEq, Prod.mk.injEq] at hf
            obtain ⟨⟨hdn, htt, hcc, httl, hlen⟩, hb5⟩ := hf
            subst hdn htt hcc httl hlen hb5
            simp only [ResourceRecord.deserialize, heq1, heq2, heq3, heq4, heq5, ht]

/-- Claim C4 witness: a record of unrecognized type 2 with rdlength 4 at
offset 0 of c4Buf decodes to the opaque Unknown(4) rdata with the cursor at 11,
immediately after the rdlength field and before the 4 rdata bytes. -/
theorem c4_unknown_type_rdata_unconsumed_witness :
    ResourceRecord.deserialize c4Buf =
      .ok ({ domain_name := ⟨[]⟩
             rrtype := .unknown 2
             rrclass := .inet
             ttl := 60
             rrdata_len := 4
             rrdata := .unknown 4 }, { c4Buf with pos := 11 }) := by
  exact c4_unknown_type_rdata_unconsumed c4Buf ⟨[]⟩ 2 1 60 4 { c4Buf with pos := 11 } 2
    rfl rfl

/- ### Claim C5 -/

/-- Claim C5: a failure at any of the five stages of message decode (header,
questions, answers, authorities, additionals) aborts the whole decode and
surfaces that first error; since the only success shape is the fully populated
record built at the end, a partially populated Message is never returned. -/
theorem c5_first_error_aborts_decode (b : BytePacketBuffer) :
    (∀ e, Header.deserialize b = .error e → Message.deserialize b = .error e) ∧
    (∀ e hdr b1, Header.deserialize b = .ok (hdr, b1) →
      repeatDecode Question.deserialize hdr.question_count b1 = .error e →
      Message.deserialize b = .error e) ∧
    (∀ e hdr b1 qs b2, Header.deserialize b = .ok (hdr, b1) →
      repeatDecode Question.deserialize hdr.question_count b1 = .ok (qs, b2) →
      repeatDecode ResourceRecord.deserialize hdr.answer_count b2 = .error e →
      Message.deserialize b = .error e) ∧
    (∀ e hdr b1 qs b2 ans b3, Header.deserialize b = .ok (hdr, b1) →
      repeatDecode Question.deserialize hdr.question_count b1 = .ok (qs, b2) →
      repeatDecode ResourceRecord.deserialize hdr.answer_count b2 = .ok (ans, b3) →
      repeatDecode ResourceRecord.deserialize hdr.authority_count b3 = .error e →
      Message.deserialize b = .error e) ∧
    (∀ e hdr b1 qs b2 ans b3 auths b4, Header.deserialize b = .ok (hdr, b1) →
      repeatDecode Question.deserialize hdr.question_count b1 = .ok (qs, b2) →
      repeatDecode ResourceRecord.deserialize hdr.answer_count b2 = .ok (ans, b3) →
      repeatDecode ResourceRecord.deserialize hdr.authority_count b3 = .ok (auths, b4) →
      repeatDecode ResourceRecord.deserialize hdr.additional_count b4 = .error e →
      Message.deserialize b = .error e) := by
  refine ⟨?_, ?_, ?_, ?_, ?_⟩ <;> intros <;> simp only [Message.deserialize, *]

/-- Claim C5 witness: c5Buf declares 200 questions over an otherwise all-zero
buffer; the 101st question decode walks past the end of the 512-byte buffer,
and the whole message decode surfaces that ReadOverrun. -/
theorem c5_first_error_aborts_decode_witness :
    Message.deserialize c5Buf = .error .readOverrun := by
  exact (c5_first_error_aborts_decode c5Buf).2.1 .readOverrun
    { Header.new with question_count := 200 } { c5Buf with pos := 12 } rfl rfl

/- ### Claim C6 -/

theorem repeatDecode_length {α : Type}
    (f : BytePacketBuffer → BufResult (α × BytePacketBuffer)) :
    ∀ (n : Nat) (b : BytePacketBuffer) (l : List α) (b1 : BytePacketBuffer),
    repeatDecode f n b = .ok (l, b1) → l.length = n := by
  intro n
  induction n with
  | zero =>
    intro b l b1 h
    simp only [repeatDecode, Except.ok.injEq, Prod.mk.injEq] at h
    rw [← h.1]
    rfl
  | succ m ih =>
    intro b l b1 h
    simp only [repeatDecode] at h
    split at h
    · exact Except.noConfusion h
    · split at h
      · exact Except.noConfusion h
      · rename_i rest b2 heq
        simp only [Except.ok.injEq, Prod.mk.injEq] at h
        rw [← h.1]
        simp only [List.length_cons, ih _ _ _ heq]

/-- Claim C6: every successful message decode decodes the header first (the
message carries exactly the decoded header) and the four count fields drive
that many section decodes: the four sequences of the returned message have
lengths equal to the four counts of its header. -/
theorem c6_section_lengths_match_counts (b : BytePacketBuffer) (m : Message)
    (bend : BytePacketBuffer) (h : Message.deserialize b = .ok (m, bend)) :
    m.questions.length = m.header.question_count ∧
    m.answers.length = m.header.answer_count ∧
    m.authorities.length = m.header.authority_count ∧
    m.additionals.length = m.header.additional_count ∧
    ∃ bh, Header.deserialize b = .ok (m.header, bh) := by
  unfold Message.deserialize at h
  split at h
  · exact Except.noConfusion h
  · rename_i hdr bh hhdr
    split at h
    · exact Except.noConfusion h
    · rename_i qs b2 hqs
      split at h
      · exact Except.noConfusion h
      · rename_i ans b3 hans
        split at h
        · exact Except.noConfusion h
        · rename_i auths b4 hauths
          split at h
          · exact Except.noConfusion h
          · rename_i adds b5 hadds
            simp only [Except.ok.injEq, Prod.mk.injEq] at h
            obtain ⟨hm, _⟩ := h
            rw [← hm]
            refine ⟨repeatDecode_length _ _ _ _ _ hqs,
              repeatDecode_length _ _ _ _ _ hans,
              repeatDecode_length _ _ _ _ _ hauths,
              repeatDecode_length _ _ _ _ _ hadds, ⟨bh, hhdr⟩⟩

/-- Claim C6 witness: the all-zero buffer decodes as a header with all four
counts zero followed by four empty sections (the decoded message is exactly
Message.new, with the cursor at 12); the theorem instantiated there gives the
length equalities. -/
theorem c6_section_lengths_match_counts_witness :
    Message.deserialize zeroBuf = .ok (Message.new, { zeroBuf with pos := 12 }) ∧
    Message.new.questions.length = Message.new.header.question_count := by
  refine ⟨rfl, ?_⟩
  exact (c6_section_lengths_match_counts zeroBuf Message.new
    { zeroBuf with pos := 12 } rfl).1

/- ### Claim C10 -/

theorem fold_push_question : ∀ (qs : List Question) (m : Message),
    m.header.question_count = m.questions.length →
    m.questions.length + qs.length < 65536 →
    (qs.foldl Message.push_question m).questions = m.questions ++ qs ∧
    (qs.foldl Message.push_question m).header.question_count =
      m.questions.length + qs.length := by
  intro qs
  induction qs with
  | nil =>
    intro m h1 h2
    simp [h1]
  | cons q qs ih =>
    intro m h1 h2
    have hlen : m.questions.length + 1 < 65536 := by
      simp only [List.length_cons] at h2
      omega
    have hpush_q : (m.push_question q).questions = m.questions ++ [q] := rfl
    have hpush_c : (m.push_question q).header.question_count = m.questions.length + 1 := by
      simp only [Message.push_question, h1]
      exact Nat.mod_eq_of_lt hlen
    have ihbound : (m.push_question q).questions.length + qs.length < 65536 := by
      rw [hpush_q]
      simp only [List.length_append, List.length_cons, List.length_nil] at h2 ⊢
      omega
    have ihinv : (m.push_question q).header.question_count =
        (m.push_question q).questions.length := by
      rw [hpush_c, hpush_q]
      simp
    obtain ⟨ha, hb⟩ := ih (m.push_question q) ihinv ihbound
    constructor
    · rw [List.foldl_cons, ha, hpush_q, List.append_assoc]
      rfl
    · rw [List.foldl_cons, hb, hpush_q]
      simp only [List.length_append, List.length_cons, List.length_nil]
      omega

/-- Claim C10 counterexample: question_count is a u16; on a message whose
counter sits at 65535, push_question wraps the counter to 0 instead of
incrementing it to 65536, so the increment-by-exactly-one claim fails there
(and with it the count == length invariant after 65536 pushes). -/
theorem c10_push_question_cex :
    (mBig.push_question q0).header.question_count = 0 ∧
    mBig.header.question_count + 1 = 65536 ∧
    (mBig.push_question q0).header.question_count ≠ mBig.header.question_count + 1 := by
  exact ⟨rfl, rfl, by decide⟩

/-- Claim C10 amended: push_question appends the question and increments the
u16 question counter by exactly one provided the counter is below 65535 (it
wraps modulo 65536 at the top); all other header fields and the three record
sections are unchanged; the count == length invariant is preserved by a push
below the bound; and any message built from Message.new by fewer than 65536
repeated push_question calls carries exactly the pushed questions with
question_count equal to their number. -/
theorem c10_push_question_amended (m : Message) (q : Question) (qs : List Question)
    (hm : m.header.question_count < 65535) (hqs : qs.length < 65536) :
    (m.push_question q).questions = m.questions ++ [q] ∧
    (m.push_question q).header.question_count = m.header.question_count + 1 ∧
    (m.push_question q).answers = m.answers ∧
    (m.push_question q).authorities = m.authorities ∧
    (m.push_question q).additionals = m.additionals ∧
    (m.push_question q).header.id = m.header.id ∧
    (m.push_question q).header.message_type = m.header.message_type ∧
    (m.push_question q).header.op_code = m.header.op_code ∧
    (m.push_question q).header.authoritative_answer = m.header.authoritative_answer ∧
    (m.push_question q).header.truncation = m.header.truncation ∧
    (m.push_question q).header.recursion_desired = m.header.recursion_desired ∧
    (m.push_question q).header.recursion_available = m.header.recursion_available ∧
    (m.push_question q).header.authentic_data = m.header.authentic_data ∧
    (m.push_question q).header.checking_disabled = m.header.checking_disabled ∧
    (m.push_question q).header.response_code = m.header.response_code ∧
    (m.push_question q).header.answer_count = m.header.answer_count ∧
    (m.push_question q).header.authority_count = m.header.authority_count ∧
    (m.push_question q).header.additional_count = m.header.additional_count ∧
    (m.header.question_count = m.questions.length →
      (m.push_question q).header.question_count = (m.push_question q).questions.length) ∧
    (qs.foldl Message.push_question Message.new).questions = qs ∧
    (qs.foldl Message.push_question Message.new).header.question_count = qs.length := by
  have hinc : (m.push_question q).header.question_count = m.header.question_count + 1 := by
    simp only [Message.push_question]
    exact Nat.mod_eq_of_lt (by omega)
  have hfold := fold_push_question qs Message.new rfl (by simpa [Message.new] using hqs)
  refine ⟨rfl, hinc, rfl, rfl, rfl, rfl, rfl, rfl, rfl, rfl, rfl, rfl, rfl, rfl, rfl,
    rfl, rfl, rfl, ?_, by simpa [Message.new] using hfold.1,
    by simpa [Message.new] using hfold.2⟩
  intro hinv
  rw [hinc, hinv]
  simp [Message.push_question]

/-- Claim C10 witness: pushing one question onto the fresh message appends it
and brings the counter to 1; folding the same single-question list from
Message.new leaves counter 1 = number of questions. -/
theorem c10_push_question_amended_witness :
    (Message.new.push_question q0).questions = [q0] ∧
    (Message.new.push_question q0).header.question_count = 1 ∧
    (([q0] : List Question).foldl Message.push_question Message.new).header.question_count
      = 1 := by
  have h := c10_push_question_amended Message.new q0 [q0] (by decide) (by decide)
  obtain ⟨h1, h2, _, _, _, _, _, _, _, _, _, _, _, _, _, _, _, _, _, _, hf⟩ := h
  exact ⟨h1, h2, hf⟩
